import Mathlib

/-!
Verification of the moonshot object-storage abstraction layer
(`moonshot/src/storage/storage.py`) and the web-API boundary
(`integrations/web_api/routes/redteam.py`,
`integrations/web_api/status_updater/moonshot_ui_webhook.py`).

The Python code is shallowly embedded: the filesystem is an association
list from full path strings to file contents, the process-wide
`EnvironmentVars` configuration is a partial map from object-type name to
root directory (`getattr` on an unknown attribute is the `none` case), and
every fallible operation returns `Except StorageError`.
-/

namespace Moonshot

/-- JSON values as handled by Python's `json` module (`json.dump` /
`json.load`). -/
inductive Json where
  | null
  | bool (b : Bool)
  | num (n : Int)
  | str (s : String)
  | arr (items : List Json)
  | obj (fields : List (String × Json))

/-- The faults the storage layer can raise, by Python exception kind:
`AttributeError` from `getattr(EnvironmentVars, obj_type)` (the spec's
ConfigurationError), `FileNotFoundError` from `open` on a missing path
(NotFoundError), `json.JSONDecodeError` (FormatError), `RuntimeError`
raised explicitly with a message, and the `OSError` from
`os.path.getctime` on a missing path. -/
inductive StorageError where
  | attributeError (attr : String)
  | fileNotFoundError (path : String)
  | jsonDecodeError (path : String)
  | runtimeError (msg : String)
  | osError (path : String)
deriving Repr, DecidableEq

/-- The process-wide `EnvironmentVars` configuration: object-type name to
configured root directory. `attrs t = none` models `getattr` raising
`AttributeError` for an attribute that does not exist. -/
structure EnvironmentVars where
  attrs : String → Option String

/-- Contents of a file on disk: either bytes that parse as JSON (with the
parsed value) or bytes that do not. -/
inductive FileContent where
  | jsonContent (v : Json)
  | rawContent (s : String)

/-- The filesystem: an association list from full path to file content
(at most one entry per path in reachable states), plus the OS-maintained
creation timestamps consulted by `os.path.getctime`. -/
structure FileSystem where
  files : List (String × FileContent)
  ctimes : String → Int

/-- First-match association-list lookup, i.e. what the OS returns for a
path. -/
def lookupFile : List (String × FileContent) → String → Option FileContent
  | [], _ => none
  | (q, c) :: rest, p => if q = p then some c else lookupFile rest p

def FileSystem.lookup (fs : FileSystem) (p : String) : Option FileContent :=
  lookupFile fs.files p

/-- `open(path, "w")` followed by a full write: truncates/replaces any
existing file at `p`. -/
def FileSystem.setFile (fs : FileSystem) (p : String) (c : FileContent) : FileSystem :=
  { fs with files := (p, c) :: fs.files.filter (fun q => q.1 ≠ p) }

/-- `Path(p).unlink()`: removes the file at `p`. -/
def FileSystem.removeFile (fs : FileSystem) (p : String) : FileSystem :=
  { fs with files := fs.files.filter (fun q => q.1 ≠ p) }

/-- `Storage.get_filepath`: `f"{getattr(EnvironmentVars, obj_type)}/{obj_id}.{obj_extension}"`.
Pure: no filesystem argument, no I/O. -/
def Storage.get_filepath (env : EnvironmentVars) (obj_type obj_id obj_extension : String) :
    Except StorageError String :=
  match env.attrs obj_type with
  | none => .error (.attributeError obj_type)
  | some root => .ok (root ++ "/" ++ obj_id ++ "." ++ obj_extension)

/-- `Storage.create_object`: resolves the same f-string path and
`json.dump`s the mapping `obj_info` to it, truncating any existing file. -/
def Storage.create_object (env : EnvironmentVars) (fs : FileSystem)
    (obj_type obj_id : String) (obj_info : List (String × Json)) (obj_extension : String) :
    Except StorageError FileSystem :=
  match env.attrs obj_type with
  | none => .error (.attributeError obj_type)
  | some root =>
      .ok (fs.setFile (root ++ "/" ++ obj_id ++ "." ++ obj_extension)
        (.jsonContent (.obj obj_info)))

/-- `Storage.read_object`: `open(path, "r")` then `json.load`. A missing
path raises `FileNotFoundError`; content that is not valid JSON raises
`json.JSONDecodeError`. -/
def Storage.read_object (env : EnvironmentVars) (fs : FileSystem)
    (obj_type obj_id obj_extension : String) : Except StorageError Json :=
  match env.attrs obj_type with
  | none => .error (.attributeError obj_type)
  | some root =>
      let p := root ++ "/" ++ obj_id ++ "." ++ obj_extension
      match fs.lookup p with
      | none => .error (.fileNotFoundError p)
      | some (.rawContent _) => .error (.jsonDecodeError p)
      | some (.jsonContent v) => .ok v

/-- `Storage.delete_object`: `unlink` if the path exists, else
`raise RuntimeError(f"No {obj_type} found with ID: {obj_id}")`. -/
def Storage.delete_object (env : EnvironmentVars) (fs : FileSystem)
    (obj_type obj_id obj_extension : String) : Except StorageError FileSystem :=
  match env.attrs obj_type with
  | none => .error (.attributeError obj_type)
  | some root =>
      let p := root ++ "/" ++ obj_id ++ "." ++ obj_extension
      if (fs.lookup p).isSome then .ok (fs.removeFile p)
      else .error (.runtimeError ("No " ++ obj_type ++ " found with ID: " ++ obj_id))

/-- An item of an fnmatch character class `[...]`: a single character or
an `a-b` range. -/
inductive ClassItem where
  | single (c : Char)
  | range (lo hi : Char)
deriving Repr, DecidableEq

/-- A token of a compiled fnmatch pattern, mirroring what
`fnmatch.translate` emits: a literal character, `?` (any one character),
`*` (any sequence), or a character class with optional negation. -/
inductive PatTok where
  | lit (c : Char)
  | anyChar
  | star
  | cls (negated : Bool) (items : List ClassItem)
deriving Repr, DecidableEq

/-- Scan for the next unescaped `]`; returns the characters before it and
the remainder after it, or `none` if the pattern ends first. -/
def scanClose : List Char → Option (List Char × List Char)
  | [] => none
  | c :: rest =>
      if c = ']' then some ([], rest)
      else
        match scanClose rest with
        | none => none
        | some (s, r) => some (c :: s, r)

/-- How many leading characters after `[` are exempt from closing the
class in `fnmatch.translate`: a leading `!` and a `]` right after it. -/
def classSkip (p : List Char) : Nat :=
  match p with
  | '!' :: ']' :: _ => 2
  | '!' :: _ => 1
  | ']' :: _ => 1
  | _ => 0

/-- `fnmatch.translate`'s bracket scan on the characters following `[`: a
leading `!` and an immediately following `]` do not close the class; the
next `]` does. Returns the class content and the remainder, or `none` for
an unclosed `[` (which `translate` then treats as a literal). -/
def splitClass (p : List Char) : Option (List Char × List Char) :=
  match scanClose (p.drop (classSkip p)) with
  | none => none
  | some (s, r) => some (p.take (classSkip p) ++ s, r)

/-- Class content into items: `a-b` with `-` neither first nor last is a
range, everything else is literal (so a trailing `-` is literal, as in
`fnmatch.translate`). -/
def parseClassItems : List Char → List ClassItem
  | [] => []
  | c :: '-' :: hi :: rest => .range c hi :: parseClassItems rest
  | c :: rest => .single c :: parseClassItems rest

/-- Compile an fnmatch pattern, following `fnmatch.translate`: `*`, `?`,
`[...]` classes with `!` negation, unclosed `[` literal. Structured over
a fuel bound (each step consumes at least one pattern character, so fuel
`≥` pattern length never runs out). -/
def parsePatternFuel : Nat → List Char → List PatTok
  | _, [] => []
  | 0, _ :: _ => []
  | fuel + 1, c :: p =>
      if c = '*' then .star :: parsePatternFuel fuel p
      else if c = '?' then .anyChar :: parsePatternFuel fuel p
      else if c = '[' then
        match splitClass p with
        | none => .lit '[' :: parsePatternFuel fuel p
        | some (stuff, rest) =>
            (match stuff with
              | '!' :: body => .cls true (parseClassItems body)
              | body => .cls false (parseClassItems body)) :: parsePatternFuel fuel rest
      else .lit c :: parsePatternFuel fuel p

def parsePattern (l : List Char) : List PatTok := parsePatternFuel l.length l

/-- Does a character satisfy one class item? -/
def classItemMatch : ClassItem → Char → Bool
  | .single c, ch => ch == c
  | .range lo hi, ch => decide (lo ≤ ch) && decide (ch ≤ hi)

/-- Match a compiled fnmatch pattern against a name: `*` matches any
sequence (some suffix of the name matches the rest of the pattern), `?`
any one character, a class one character from (or, negated, outside) its
items, a literal itself. -/
def matchToks : List PatTok → List Char → Bool
  | [], [] => true
  | [], _ :: _ => false
  | .star :: ts, n => n.tails.any (fun nt => matchToks ts nt)
  | .anyChar :: _, [] => false
  | .anyChar :: ts, _ :: nt => matchToks ts nt
  | .lit _ :: _, [] => false
  | .lit c :: ts, nc :: nt => (nc == c) && matchToks ts nt
  | .cls _ _ :: _, [] => false
  | .cls neg items :: ts, nc :: nt =>
      (if neg then !(items.any (fun it => classItemMatch it nc))
        else items.any (fun it => classItemMatch it nc)) && matchToks ts nt

/-- Split a path (or pattern) into its `/`-separated components, the way
`glob` walks one directory level per component. -/
def splitSlash : List Char → List (List Char)
  | [] => [[]]
  | c :: rest =>
      if c = '/' then [] :: splitSlash rest
      else
        match splitSlash rest with
        | [] => [[c]]
        | comp :: comps => (c :: comp) :: comps

/-- Join the components back with `/`; inverse of `splitSlash`. -/
def joinSlash : List (List Char) → List Char
  | [] => []
  | [comp] => comp
  | comp :: comps => comp ++ '/' :: joinSlash comps

/-- One directory level of `glob`: the entry name must fnmatch the
pattern component, and a hidden entry (leading `.`) is only matched by a
pattern component that itself starts with `.`. -/
def componentMatch (pat name : List Char) : Bool :=
  (match pat, name with
    | p0 :: _, n0 :: _ => (p0 == '.') || (n0 != '.')
    | _, _ => true) &&
  matchToks (parsePattern pat) name

/-- `glob.iglob(f"{root}/*.{ext}")` against one path: the pattern and the
path are split on `/` and matched level by level. -/
def globMatch (root ext path : String) : Bool :=
  (splitSlash (root ++ "/*." ++ ext).data).length == (splitSlash path.data).length &&
    (List.zip (splitSlash (root ++ "/*." ++ ext).data) (splitSlash path.data)).all
      (fun pc => componentMatch pc.1 pc.2)

/-- `Storage.get_objects`: `glob.iglob(f"{root}/*.{obj_extension}")` —
the paths currently on disk matching the pattern. -/
def Storage.get_objects (env : EnvironmentVars) (fs : FileSystem)
    (obj_type obj_extension : String) : Except StorageError (List String) :=
  match env.attrs obj_type with
  | none => .error (.attributeError obj_type)
  | some root =>
      .ok ((fs.files.map Prod.fst).filter (fun p => globMatch root obj_extension p))

/-- `Storage.get_creation_datetime`: `os.path.getctime` raises `OSError`
for a missing path; otherwise the OS timestamp is converted with
`datetime.datetime.fromtimestamp` (the timestamp value itself in this
embedding). -/
def Storage.get_creation_datetime (env : EnvironmentVars) (fs : FileSystem)
    (obj_type obj_id obj_extension : String) : Except StorageError Int :=
  match env.attrs obj_type with
  | none => .error (.attributeError obj_type)
  | some root =>
      let p := root ++ "/" ++ obj_id ++ "." ++ obj_extension
      if (fs.lookup p).isSome then .ok (fs.ctimes p) else .error (.osError p)

/-- `Storage.is_object_exists`: `Path(path).exists()`. -/
def Storage.is_object_exists (env : EnvironmentVars) (fs : FileSystem)
    (obj_type obj_id obj_extension : String) : Except StorageError Bool :=
  match env.attrs obj_type with
  | none => .error (.attributeError obj_type)
  | some root => .ok ((fs.lookup (root ++ "/" ++ obj_id ++ "." ++ obj_extension)).isSome)

/-- The operations a caller can issue on an opened database accessor
(`DBAccessor.close_connection` / `create_table` / `create_record` /
`update_record`); SQL text and positional parameters are opaque to the
storage layer and recorded verbatim. -/
inductive DBOp where
  | closeConnection
  | createTable (sql : String)
  | createRecord (data : List String) (sql : String)
  | updateRecord (data : List String) (sql : String)
deriving Repr, DecidableEq

/-- An opened database accessor handle: the database file it is bound to
and the log of operations that have been delegated to it. -/
structure DBAccessor where
  db_file : String
  ops : List DBOp
deriving Repr, DecidableEq

/-- `Storage.create_database_connection`: resolves the path via
`Storage.get_filepath`, calls `DatabaseManager.create_connection` (the
`connect` oracle; `none` models a falsy result), and raises
`RuntimeError("db instance is not initialised.")` when no usable handle
comes back. -/
def Storage.create_database_connection (connect : String → Option DBAccessor)
    (env : EnvironmentVars) (obj_type obj_id obj_extension : String) :
    Except StorageError DBAccessor :=
  match Storage.get_filepath env obj_type obj_id obj_extension with
  | .error e => .error e
  | .ok p =>
      match connect p with
      | none => .error (.runtimeError "db instance is not initialised.")
      | some database_instance => .ok database_instance

/-- `Storage.close_database_connection`: `if database_instance:` delegate
`close_connection`, `else raise RuntimeError(...)`. A `none` argument is
Python's falsy `None` reference. -/
def Storage.close_database_connection (database_instance : Option DBAccessor) :
    Except StorageError DBAccessor :=
  match database_instance with
  | some db => .ok { db with ops := db.ops ++ [DBOp.closeConnection] }
  | none => .error (.runtimeError "Database instance is not initialised.")

/-- `Storage.create_database_table`: same guard, then delegates
`create_table(sql_create_table)`. -/
def Storage.create_database_table (database_instance : Option DBAccessor)
    (sql_create_table : String) : Except StorageError DBAccessor :=
  match database_instance with
  | some db => .ok { db with ops := db.ops ++ [DBOp.createTable sql_create_table] }
  | none => .error (.runtimeError "Database instance is not initialised.")

/-- `Storage.create_database_record`: same guard, then delegates
`create_record(data, sql_create_record)`. -/
def Storage.create_database_record (database_instance : Option DBAccessor)
    (data : List String) (sql_create_record : String) : Except StorageError DBAccessor :=
  match database_instance with
  | some db => .ok { db with ops := db.ops ++ [DBOp.createRecord data sql_create_record] }
  | none => .error (.runtimeError "Database instance is not initialised.")

/-- `Storage.update_database_record`: same guard, then delegates
`update_record(data, sql_update_record)`. -/
def Storage.update_database_record (database_instance : Option DBAccessor)
    (data : List String) (sql_update_record : String) : Except StorageError DBAccessor :=
  match database_instance with
  | some db => .ok { db with ops := db.ops ++ [DBOp.updateRecord data sql_update_record] }
  | none => .error (.runtimeError "Database instance is not initialised.")

/-! Web-API boundary (`integrations/web_api/routes/redteam.py`). -/

/-- `SessionException` from the session service: an error code string
(`"FileNotFound"`, `"ValidationError"`, ...) and a message. -/
structure SessionException where
  error_code : String
  msg : String
deriving Repr, DecidableEq

/-- `fastapi.HTTPException`: status code plus detail string. -/
structure HTTPException where
  status_code : Nat
  detail : String
deriving Repr, DecidableEq

/-- A session record as returned by the session service
(`SessionMetadataModel` plus the mutable `chat_history` field the route
may fill in); the metadata itself is opaque here. -/
structure SessionData where
  metadata : String
  chat_history : Option (List String)
deriving Repr, DecidableEq

/-- `SessionResponseModel`. -/
structure SessionResponseModel where
  session : SessionData
deriving Repr, DecidableEq

/-- The slice of `SessionService` the embedded routes call. Each field is
the observable outcome of the corresponding service call: `.error e`
models the call raising `SessionException e`. -/
structure SessionService where
  get_sessions : Except SessionException (List SessionData)
  get_session : String → Except SessionException (Option SessionData)
  get_session_chat_history : String → Except SessionException (List String)
  select_prompt_template : String → String → Except SessionException Bool

/-- `GET /v1/sessions`: returns `session_service.get_sessions()`, and on
`SessionException` raises an `HTTPException` whose status is 404 for
`"FileNotFound"`, 400 for `"ValidationError"`, 500 otherwise, with the
exception's message as detail. -/
def get_all_sessions (session_service : SessionService) :
    Except HTTPException (List SessionData) :=
  match session_service.get_sessions with
  | .ok v => .ok v
  | .error e =>
      if e.error_code = "FileNotFound" then .error ⟨404, e.msg⟩
      else if e.error_code = "ValidationError" then .error ⟨400, e.msg⟩
      else .error ⟨500, e.msg⟩

/-- `GET /v1/sessions/{session_id}`: fetches the session, optionally
attaches chat history, answers 404 `"Session not found"` for a `None`
session, and translates `SessionException` exactly as the other routes
do. -/
def get_session_by_session_id (session_service : SessionService)
    (session_id : String) (include_history : Bool) :
    Except HTTPException SessionResponseModel :=
  match session_service.get_session session_id with
  | .error e =>
      if e.error_code = "FileNotFound" then .error ⟨404, e.msg⟩
      else if e.error_code = "ValidationError" then .error ⟨400, e.msg⟩
      else .error ⟨500, e.msg⟩
  | .ok session_data =>
      if include_history then
        match session_service.get_session_chat_history session_id with
        | .error e =>
            if e.error_code = "FileNotFound" then .error ⟨404, e.msg⟩
            else if e.error_code = "ValidationError" then .error ⟨400, e.msg⟩
            else .error ⟨500, e.msg⟩
        | .ok history =>
            match session_data with
            | some d => .ok ⟨{ d with chat_history := some history }⟩
            | none => .error ⟨404, "Session not found"⟩
      else
        match session_data with
        | some d => .ok ⟨d⟩
        | none => .error ⟨404, "Session not found"⟩

set_option linter.unusedVariables false in
/-- `DELETE /v1/sessions/{session_id}/prompt_templates/{prompt_template_name}`:
calls `session_service.select_prompt_template(session_id, "")` — the path
parameter `prompt_template_name` is never passed on — and wraps the
result as `{"success": result}`, with the same exception translation. -/
def unset_prompt_template (session_service : SessionService)
    (session_id : String) (prompt_template_name : String) :
    Except HTTPException Bool :=
  match session_service.select_prompt_template session_id "" with
  | .ok result => .ok result
  | .error e =>
      if e.error_code = "FileNotFound" then .error ⟨404, e.msg⟩
      else if e.error_code = "ValidationError" then .error ⟨400, e.msg⟩
      else .error ⟨500, e.msg⟩

/-! Webhook progress poster
(`integrations/web_api/status_updater/moonshot_ui_webhook.py`). -/

/-- A progress snapshot (`TestRunProgress`); its fields are opaque to the
webhook, which only serializes and forwards it. -/
structure TestRunProgress where
  raw : String
deriving Repr, DecidableEq

/-- The world `MoonshotUIWebhook.on_progress_update` acts on: the
in-memory `BenchmarkTestState` (of abstract type `σ`), the logger's
output, and the storage layer's filesystem (carried along to state that
the webhook never touches it). -/
structure WebhookWorld (σ : Type) where
  benchmark_test_state : σ
  log : List String
  storage : FileSystem

/-- `MoonshotUIWebhook.on_progress_update`: logs the snapshot, updates the
in-memory benchmark state, then posts to the callback URL; a successful
post logs the response and an info line, a `requests.RequestException`
(`post p = .error e`) is logged as critical and swallowed. Total: the
call always returns. -/
def MoonshotUIWebhook.on_progress_update {σ : Type}
    (update_progress_status : σ → TestRunProgress → σ)
    (post : TestRunProgress → Except String String)
    (w : WebhookWorld σ) (progress_data : TestRunProgress) : WebhookWorld σ :=
  let w1 : WebhookWorld σ :=
    { w with
      log := w.log ++ ["DEBUG: " ++ progress_data.raw]
      benchmark_test_state := update_progress_status w.benchmark_test_state progress_data }
  match post progress_data with
  | .ok body =>
      { w1 with
        log := w1.log ++ ["DEBUG: " ++ body,
          "INFO: Progress data successfully sent to the server."] }
  | .error e =>
      { w1 with log := w1.log ++ ["CRITICAL: Failed to send progress data: " ++ e] }

/-! Concrete fixtures used to witness the theorems below. -/

/-- A concrete configuration: the `recipe` type rooted at `rt`, the
`session` type rooted at `rs`, everything else unconfigured. -/
def envTest : EnvironmentVars :=
  ⟨fun t => if t = "recipe" then some "rt" else if t = "session" then some "rs" else none⟩

/-- An empty filesystem. -/
def fsEmpty : FileSystem := ⟨[], fun _ => 0⟩

/-- A filesystem holding one file whose bytes are not valid JSON. -/
def fsRaw : FileSystem := ⟨[("rt/r1.json", .rawContent "not json")], fun _ => 0⟩

/-! Helper lemmas about the filesystem model. -/

theorem lookupFile_filter_ne (l : List (String × FileContent)) (p : String) :
    lookupFile (l.filter (fun q => q.1 ≠ p)) p = none := by
  induction l with
  | nil => rfl
  | cons hd tl ih =>
      obtain ⟨q, c⟩ := hd
      rw [List.filter_cons]
      by_cases hq : q = p
      · rw [if_neg (by simp [hq])]
        exact ih
      · rw [if_pos (by simp [hq])]
        simp only [lookupFile]
        rw [if_neg hq]
        exact ih

theorem FileSystem.lookup_setFile_self (fs : FileSystem) (p : String) (c : FileContent) :
    (fs.setFile p c).lookup p = some c := by
  simp [FileSystem.setFile, FileSystem.lookup, lookupFile]

theorem FileSystem.lookup_removeFile_self (fs : FileSystem) (p : String) :
    (fs.removeFile p).lookup p = none :=
  lookupFile_filter_ne fs.files p

/-! The claims. -/

/-- C1: for a recognized object type, `create` then `read` on the same
(type, id, extension) returns the written mapping, and a second `create`
with a different mapping fully overwrites the first: the latest write
wins. -/
theorem create_read_round_trip (env : EnvironmentVars) (t i e r : String)
    (m m2 : List (String × Json)) (fs : FileSystem)
    (h : env.attrs t = some r) :
    ((Storage.create_object env fs t i m e).bind
        (fun fs1 => Storage.read_object env fs1 t i e) = .ok (.obj m)) ∧
    (((Storage.create_object env fs t i m e).bind
        (fun fs1 => Storage.create_object env fs1 t i m2 e)).bind
        (fun fs2 => Storage.read_object env fs2 t i e) = .ok (.obj m2)) := by
  constructor
  · simp [Storage.create_object, Storage.read_object, h, Except.bind,
      FileSystem.lookup_setFile_self]
  · simp [Storage.create_object, Storage.read_object, h, Except.bind,
      FileSystem.lookup_setFile_self]

theorem create_read_round_trip_witness :
    ((Storage.create_object envTest fsEmpty "recipe" "r1" [("name", .str "test")] "json").bind
        (fun fs1 => Storage.read_object envTest fs1 "recipe" "r1" "json")
      = .ok (.obj [("name", .str "test")])) ∧
    (((Storage.create_object envTest fsEmpty "recipe" "r1" [("name", .str "test")] "json").bind
        (fun fs1 => Storage.create_object envTest fs1 "recipe" "r1" [("k", .num 2)] "json")).bind
        (fun fs2 => Storage.read_object envTest fs2 "recipe" "r1" "json")
      = .ok (.obj [("k", .num 2)])) :=
  create_read_round_trip envTest "recipe" "r1" "json" "rt"
    [("name", .str "test")] [("k", .num 2)] fsEmpty (by decide)

/-- C2: for a recognized type, `read` on an absent path fails with
`FileNotFoundError`, `delete` on an absent path fails with the
`RuntimeError` carrying the "No {type} found with ID: {id}" message,
`get_creation_datetime` on an absent path propagates the `OSError`, and
`read` on a file whose content is not valid JSON fails with
`JSONDecodeError`; none of them returns a default value. -/
theorem absent_or_malformed_operations_fail (env : EnvironmentVars)
    (t i e r : String) (fs : FileSystem) (h : env.attrs t = some r) :
    (fs.lookup (r ++ "/" ++ i ++ "." ++ e) = none →
      Storage.read_object env fs t i e
          = .error (.fileNotFoundError (r ++ "/" ++ i ++ "." ++ e)) ∧
      Storage.delete_object env fs t i e
          = .error (.runtimeError ("No " ++ t ++ " found with ID: " ++ i)) ∧
      Storage.get_creation_datetime env fs t i e
          = .error (.osError (r ++ "/" ++ i ++ "." ++ e))) ∧
    (∀ s, fs.lookup (r ++ "/" ++ i ++ "." ++ e) = some (.rawContent s) →
      Storage.read_object env fs t i e
          = .error (.jsonDecodeError (r ++ "/" ++ i ++ "." ++ e))) := by
  constructor
  · intro habs
    refine ⟨?_, ?_, ?_⟩ <;>
      simp [Storage.read_object, Storage.delete_object, Storage.get_creation_datetime,
        h, habs]
  · intro s hraw
    simp [Storage.read_object, h, hraw]

theorem absent_or_malformed_operations_fail_witness :
    (Storage.read_object envTest fsEmpty "recipe" "r1" "json"
        = .error (.fileNotFoundError "rt/r1.json") ∧
      Storage.delete_object envTest fsEmpty "recipe" "r1" "json"
        = .error (.runtimeError "No recipe found with ID: r1") ∧
      Storage.get_creation_datetime envTest fsEmpty "recipe" "r1" "json"
        = .error (.osError "rt/r1.json")) ∧
    (Storage.read_object envTest fsRaw "recipe" "r1" "json"
        = .error (.jsonDecodeError "rt/r1.json")) := by
  constructor
  · exact (absent_or_malformed_operations_fail envTest "recipe" "r1" "json" "rt"
      fsEmpty (by decide)).1 rfl
  · exact (absent_or_malformed_operations_fail envTest "recipe" "r1" "json" "rt"
      fsRaw (by decide)).2 "not json" rfl

/-- C3: the path resolver returns exactly `root(objType)/id.extension`
with no escaping or normalization (it is a pure function of the
configuration and the three string inputs — its type takes no
filesystem), and for an unrecognized type it fails immediately with the
`AttributeError` (the spec's ConfigurationError). -/
theorem get_filepath_resolves_or_fails (env : EnvironmentVars) (t i e : String) :
    (∀ r, env.attrs t = some r →
      Storage.get_filepath env t i e = .ok (r ++ "/" ++ i ++ "." ++ e)) ∧
    (env.attrs t = none →
      Storage.get_filepath env t i e = .error (.attributeError t)) := by
  constructor
  · intro r h
    simp [Storage.get_filepath, h]
  · intro h
    simp [Storage.get_filepath, h]

theorem get_filepath_resolves_or_fails_witness :
    Storage.get_filepath envTest "recipe" "r1" "json" = .ok "rt/r1.json" ∧
    Storage.get_filepath envTest "connector" "r1" "json"
      = .error (.attributeError "connector") := by
  constructor
  · exact (get_filepath_resolves_or_fails envTest "recipe" "r1" "json").1 "rt" (by decide)
  · exact (get_filepath_resolves_or_fails envTest "connector" "r1" "json").2 (by decide)

/-- C4: for a recognized type, `is_object_exists` returns `ok` of exactly
the presence of the resolved path — in particular `ok false`, not an
error, for a missing path. -/
theorem is_object_exists_no_failure (env : EnvironmentVars) (t i e r : String)
    (fs : FileSystem) (h : env.attrs t = some r) :
    Storage.is_object_exists env fs t i e
        = .ok ((fs.lookup (r ++ "/" ++ i ++ "." ++ e)).isSome) ∧
    (fs.lookup (r ++ "/" ++ i ++ "." ++ e) = none →
      Storage.is_object_exists env fs t i e = .ok false) := by
  refine ⟨by simp [Storage.is_object_exists, h], ?_⟩
  intro habs
  simp [Storage.is_object_exists, h, habs]

theorem is_object_exists_no_failure_witness :
    Storage.is_object_exists envTest fsRaw "recipe" "r1" "json" = .ok true ∧
    Storage.is_object_exists envTest fsEmpty "recipe" "r1" "json" = .ok false := by
  constructor
  · exact (is_object_exists_no_failure envTest "recipe" "r1" "json" "rt" fsRaw
      (by decide)).1
  · exact (is_object_exists_no_failure envTest "recipe" "r1" "json" "rt" fsEmpty
      (by decide)).2 rfl

/-- C6: for a recognized type, `create` followed by `delete` on the same
(type, id, extension) succeeds and leaves a state where `is_object_exists`
returns `ok false` and `read_object` fails with `FileNotFoundError`. -/
theorem create_delete_then_gone (env : EnvironmentVars) (t i e r : String)
    (m : List (String × Json)) (fs : FileSystem) (h : env.attrs t = some r) :
    ∃ fs2,
      (Storage.create_object env fs t i m e).bind
          (fun fs1 => Storage.delete_object env fs1 t i e) = .ok fs2 ∧
      Storage.is_object_exists env fs2 t i e = .ok false ∧
      Storage.read_object env fs2 t i e
        = .error (.fileNotFoundError (r ++ "/" ++ i ++ "." ++ e)) := by
  refine ⟨(fs.setFile (r ++ "/" ++ i ++ "." ++ e) (.jsonContent (.obj m))).removeFile
      (r ++ "/" ++ i ++ "." ++ e), ?_, ?_, ?_⟩
  · simp [Storage.create_object, Storage.delete_object, h, Except.bind,
      FileSystem.lookup_setFile_self]
  · simp [Storage.is_object_exists, h, FileSystem.lookup_removeFile_self]
  · simp [Storage.read_object, h, FileSystem.lookup_removeFile_self]

theorem create_delete_then_gone_witness :
    ∃ fs2,
      (Storage.create_object envTest fsEmpty "recipe" "r1" [("name", .str "test")] "json").bind
          (fun fs1 => Storage.delete_object envTest fs1 "recipe" "r1" "json") = .ok fs2 ∧
      Storage.is_object_exists envTest fs2 "recipe" "r1" "json" = .ok false ∧
      Storage.read_object envTest fs2 "recipe" "r1" "json"
        = .error (.fileNotFoundError "rt/r1.json") :=
  create_delete_then_gone envTest "recipe" "r1" "json" "rt"
    [("name", .str "test")] fsEmpty (by decide)

/-- C7: every table/record/close operation on an uninitialized accessor
reference fails with the `RuntimeError("Database instance is not
initialised.")` guard (never a silent no-op), and
`create_database_connection` fails with `RuntimeError("db instance is not
initialised.")` when the underlying connect step returns no usable
handle — when it succeeds, the handle it returns is exactly the usable
one the connect step produced. -/
theorem database_initialization_guards (connect : String → Option DBAccessor)
    (env : EnvironmentVars) (t i e r sql : String) (data : List String)
    (h : env.attrs t = some r) :
    (Storage.close_database_connection none
        = .error (.runtimeError "Database instance is not initialised.")) ∧
    (Storage.create_database_table none sql
        = .error (.runtimeError "Database instance is not initialised.")) ∧
    (Storage.create_database_record none data sql
        = .error (.runtimeError "Database instance is not initialised.")) ∧
    (Storage.update_database_record none data sql
        = .error (.runtimeError "Database instance is not initialised.")) ∧
    (connect (r ++ "/" ++ i ++ "." ++ e) = none →
      Storage.create_database_connection connect env t i e
        = .error (.runtimeError "db instance is not initialised.")) ∧
    (∀ db, Storage.create_database_connection connect env t i e = .ok db →
      connect (r ++ "/" ++ i ++ "." ++ e) = some db) := by
  refine ⟨rfl, rfl, rfl, rfl, ?_, ?_⟩
  · intro hnone
    simp [Storage.create_database_connection, Storage.get_filepath, h, hnone]
  · intro db hok
    simp only [Storage.create_database_connection, Storage.get_filepath, h] at hok
    cases hc : connect (r ++ "/" ++ i ++ "." ++ e) with
    | none => rw [hc] at hok; exact absurd hok (by simp)
    | some d => rw [hc] at hok; simp at hok; rw [hok]

theorem database_initialization_guards_witness :
    (Storage.close_database_connection none
        = .error (.runtimeError "Database instance is not initialised.")) ∧
    (Storage.create_database_table none "CREATE TABLE t (x INT)"
        = .error (.runtimeError "Database instance is not initialised.")) ∧
    (Storage.create_database_record none ["1"] "CREATE TABLE t (x INT)"
        = .error (.runtimeError "Database instance is not initialised.")) ∧
    (Storage.update_database_record none ["1"] "CREATE TABLE t (x INT)"
        = .error (.runtimeError "Database instance is not initialised.")) ∧
    (Storage.create_database_connection (fun _ => none) envTest "session" "s1" "db"
        = .error (.runtimeError "db instance is not initialised.")) ∧
    (∀ db, Storage.create_database_connection (fun _ => none) envTest "session" "s1" "db"
          = .ok db →
      (fun _ => (none : Option DBAccessor)) "rs/s1.db" = some db) := by
  have hdb := database_initialization_guards (fun _ => none) envTest "session" "s1" "db"
    "rs" "CREATE TABLE t (x INT)" ["1"] (by decide)
  exact ⟨hdb.1, hdb.2.1, hdb.2.2.1, hdb.2.2.2.1, hdb.2.2.2.2.1 rfl, hdb.2.2.2.2.2⟩

/-- C8: a `SessionException` raised by the session service is translated
by the routes to an `HTTPException` with status 404 for error code
`"FileNotFound"`, 400 for `"ValidationError"`, and 500 for anything else,
carrying the exception's message; a successful service response is passed
through unchanged. -/
theorem session_routes_translate_errors (session_service : SessionService)
    (session_id : String) (include_history : Bool) (e : SessionException) :
    (session_service.get_sessions = .error e →
      get_all_sessions session_service
        = .error ⟨if e.error_code = "FileNotFound" then 404
            else if e.error_code = "ValidationError" then 400 else 500, e.msg⟩) ∧
    (∀ v, session_service.get_sessions = .ok v →
      get_all_sessions session_service = .ok v) ∧
    (session_service.get_session session_id = .error e →
      get_session_by_session_id session_service session_id include_history
        = .error ⟨if e.error_code = "FileNotFound" then 404
            else if e.error_code = "ValidationError" then 400 else 500, e.msg⟩) := by
  refine ⟨?_, ?_, ?_⟩
  · intro herr
    by_cases h1 : e.error_code = "FileNotFound" <;>
      by_cases h2 : e.error_code = "ValidationError" <;>
        simp [get_all_sessions, herr, h1, h2]
  · intro v hok
    simp [get_all_sessions, hok]
  · intro herr
    by_cases h1 : e.error_code = "FileNotFound" <;>
      by_cases h2 : e.error_code = "ValidationError" <;>
        simp [get_session_by_session_id, herr, h1, h2]

theorem session_routes_translate_errors_witness :
    (get_all_sessions ⟨.error ⟨"FileNotFound", "gone"⟩, fun _ => .ok none,
        fun _ => .ok [], fun _ _ => .ok true⟩ = .error ⟨404, "gone"⟩) ∧
    (get_all_sessions ⟨.ok [], fun _ => .ok none,
        fun _ => .ok [], fun _ _ => .ok true⟩ = .ok []) ∧
    (get_session_by_session_id ⟨.ok [], fun _ => .error ⟨"Boom", "bad"⟩,
        fun _ => .ok [], fun _ _ => .ok true⟩ "s1" true = .error ⟨500, "bad"⟩) := by
  refine ⟨?_, ?_, ?_⟩
  · exact (session_routes_translate_errors ⟨.error ⟨"FileNotFound", "gone"⟩,
      fun _ => .ok none, fun _ => .ok [], fun _ _ => .ok true⟩ "s1" true
      ⟨"FileNotFound", "gone"⟩).1 rfl
  · exact (session_routes_translate_errors ⟨.ok [], fun _ => .ok none,
      fun _ => .ok [], fun _ _ => .ok true⟩ "s1" true ⟨"FileNotFound", "gone"⟩).2.1 [] rfl
  · exact (session_routes_translate_errors ⟨.ok [], fun _ => .error ⟨"Boom", "bad"⟩,
      fun _ => .ok [], fun _ _ => .ok true⟩ "s1" true ⟨"Boom", "bad"⟩).2.2 rfl

/-- C9: `on_progress_update` always updates the in-memory benchmark
state — whether the HTTP post succeeds or fails — never touches the
storage layer's filesystem, and on a network error logs the failure as
critical and returns normally (it is a total function). -/
theorem on_progress_update_updates_state {σ : Type}
    (update_progress_status : σ → TestRunProgress → σ)
    (post : TestRunProgress → Except String String)
    (w : WebhookWorld σ) (progress_data : TestRunProgress) :
    (MoonshotUIWebhook.on_progress_update update_progress_status post
        w progress_data).benchmark_test_state
      = update_progress_status w.benchmark_test_state progress_data ∧
    (MoonshotUIWebhook.on_progress_update update_progress_status post
        w progress_data).storage = w.storage ∧
    (∀ err, post progress_data = .error err →
      (MoonshotUIWebhook.on_progress_update update_progress_status post
          w progress_data).log
        = w.log ++ ["DEBUG: " ++ progress_data.raw,
            "CRITICAL: Failed to send progress data: " ++ err]) := by
  refine ⟨?_, ?_, ?_⟩
  · cases hp : post progress_data <;>
      simp [MoonshotUIWebhook.on_progress_update, hp]
  · cases hp : post progress_data <;>
      simp [MoonshotUIWebhook.on_progress_update, hp]
  · intro err herr
    simp [MoonshotUIWebhook.on_progress_update, herr]

theorem on_progress_update_updates_state_witness :
    ((MoonshotUIWebhook.on_progress_update (fun (_ : Option TestRunProgress) p => some p)
        (fun _ => .error "connection refused")
        ⟨none, [], fsEmpty⟩ ⟨"run1"⟩).benchmark_test_state = some (⟨"run1"⟩ : TestRunProgress)) ∧
    ((MoonshotUIWebhook.on_progress_update (fun (_ : Option TestRunProgress) p => some p)
        (fun _ => .error "connection refused")
        ⟨none, [], fsEmpty⟩ ⟨"run1"⟩).storage = fsEmpty) ∧
    ((MoonshotUIWebhook.on_progress_update (fun (_ : Option TestRunProgress) p => some p)
        (fun _ => .error "connection refused")
        ⟨none, [], fsEmpty⟩ ⟨"run1"⟩).log
      = ["DEBUG: run1", "CRITICAL: Failed to send progress data: connection refused"]) := by
  have hw := on_progress_update_updates_state
    (fun (_ : Option TestRunProgress) p => some p)
    (fun _ => .error "connection refused") ⟨none, [], fsEmpty⟩ ⟨"run1"⟩
  exact ⟨hw.1, hw.2.1, hw.2.2 "connection refused" rfl⟩

/-- C10: the DELETE prompt-template route ignores the supplied
`prompt_template_name` path parameter — the response is identical for any
two values of it — because it always invokes the session service's
template selection with the empty string, whose result it wraps. -/
theorem unset_prompt_template_ignores_name (session_service : SessionService)
    (session_id name1 name2 : String) :
    unset_prompt_template session_service session_id name1
      = unset_prompt_template session_service session_id name2 ∧
    (∀ b, session_service.select_prompt_template session_id "" = .ok b →
      unset_prompt_template session_service session_id name1 = .ok b) := by
  refine ⟨rfl, ?_⟩
  intro b hsel
  simp [unset_prompt_template, hsel]

theorem unset_prompt_template_ignores_name_witness :
    (unset_prompt_template ⟨.ok [], fun _ => .ok none, fun _ => .ok [],
        fun _ tpl => .ok (tpl = "")⟩ "s1" "mytemplate"
      = unset_prompt_template ⟨.ok [], fun _ => .ok none, fun _ => .ok [],
        fun _ tpl => .ok (tpl = "")⟩ "s1" "othertemplate") ∧
    (unset_prompt_template ⟨.ok [], fun _ => .ok none, fun _ => .ok [],
        fun _ tpl => .ok (tpl = "")⟩ "s1" "mytemplate" = .ok true) := by
  have hu := unset_prompt_template_ignores_name ⟨.ok [], fun _ => .ok none,
    fun _ => .ok [], fun _ tpl => .ok (tpl = "")⟩ "s1" "mytemplate" "othertemplate"
  exact ⟨hu.1, hu.2 true rfl⟩

/-! String and character-list lemmas for the glob semantics of
`Storage.get_objects`. -/

theorem strData_inj (s t : String) (h : s.data = t.data) : s = t := by
  cases s
  cases t
  exact congrArg String.mk h

theorem data_slash : "/".data = ['/'] := rfl

theorem data_dot : ".".data = ['.'] := rfl

theorem charList_isPrefixOf_append (l t : List Char) : l.isPrefixOf (l ++ t) = true := by
  induction l with
  | nil => simp [List.isPrefixOf]
  | cons a as ih => simp [List.isPrefixOf, ih]


theorem sep_append_inj (a : Char) (G₁ G₂ X Y : List Char)
    (h₁ : a ∉ G₁) (h₂ : a ∉ G₂) (h : G₁ ++ a :: X = G₂ ++ a :: Y) :
    G₁ = G₂ ∧ X = Y := by
  induction G₁ generalizing G₂ with
  | nil =>
      cases G₂ with
      | nil => simpa using h
      | cons b bs =>
          simp only [List.nil_append, List.cons_append, List.cons.injEq] at h
          exact absurd (show a ∈ b :: bs by simp [h.1]) h₂
  | cons c cs ih =>
      cases G₂ with
      | nil =>
          simp only [List.nil_append, List.cons_append, List.cons.injEq] at h
          exact absurd (show a ∈ c :: cs by simp [h.1]) h₁
      | cons b bs =>
          simp only [List.cons_append, List.cons.injEq] at h
          have hr := ih bs (fun hm => h₁ (List.mem_cons_of_mem c hm))
            (fun hm => h₂ (List.mem_cons_of_mem b hm)) h.2
          exact ⟨by rw [h.1, hr.1], hr.2⟩

theorem data_path_flat (r i e : String) :
    (r ++ "/" ++ i ++ "." ++ e).data = (r ++ "/").data ++ (i.data ++ '.' :: e.data) := by
  simp [String.data_append, data_slash, data_dot]

/-- Splitting at the last separator: if everything after the final `'/'`
is separator-free on both sides, the parts before and after it agree. -/
theorem sep_append_inj_last (G₁ G₂ X Y : List Char)
    (h₁ : '/' ∉ G₁) (h₂ : '/' ∉ G₂) (h : X ++ '/' :: G₁ = Y ++ '/' :: G₂) :
    X = Y ∧ G₁ = G₂ := by
  have e₁ : (X ++ '/' :: G₁).reverse = G₁.reverse ++ '/' :: X.reverse := by simp
  have e₂ : (Y ++ '/' :: G₂).reverse = G₂.reverse ++ '/' :: Y.reverse := by simp
  have hrev := congrArg List.reverse h
  rw [e₁, e₂] at hrev
  have hinj := sep_append_inj '/' G₁.reverse G₂.reverse X.reverse Y.reverse
    (fun hm => h₁ (List.mem_reverse.mp hm))
    (fun hm => h₂ (List.mem_reverse.mp hm)) hrev
  constructor
  · have hx := congrArg List.reverse hinj.2
    simpa using hx
  · have hg := congrArg List.reverse hinj.1
    simpa using hg

theorem isSuffixOf_append_left (l₁ l₂ : List Char) : l₂.isSuffixOf (l₁ ++ l₂) = true := by
  show l₂.reverse.isPrefixOf ((l₁ ++ l₂).reverse) = true
  rw [List.reverse_append]
  exact charList_isPrefixOf_append l₂.reverse l₁.reverse

theorem data_obj_path (r i e : String) :
    (r ++ "/" ++ i ++ "." ++ e).data = r.data ++ '/' :: (i.data ++ '.' :: e.data) := by
  rw [data_path_flat, String.data_append, data_slash]
  simp [List.append_assoc]

theorem data_star_path (r e : String) :
    (r ++ "/*." ++ e).data = r.data ++ '/' :: ('*' :: '.' :: e.data) := by
  have h1 : "/*.".data = ['/', '*', '.'] := rfl
  rw [String.data_append, String.data_append, h1]
  simp [List.append_assoc]

/-! Lemmas about the fnmatch pattern compiler and matcher on patterns
without metacharacters, and about the `*.{ext}` pattern. -/

theorem parsePatternFuel_literal (l : List Char) : ∀ (fuel : Nat), l.length ≤ fuel →
    (∀ c ∈ l, c ≠ '*' ∧ c ≠ '?' ∧ c ≠ '[') →
    parsePatternFuel fuel l = l.map PatTok.lit := by
  induction l with
  | nil =>
      intro fuel _ _
      cases fuel <;> rfl
  | cons c p ih =>
      intro fuel hf hc
      cases fuel with
      | zero => simp at hf
      | succ f =>
          have hcc := hc c (List.mem_cons_self c p)
          simp only [parsePatternFuel]
          rw [if_neg hcc.1, if_neg hcc.2.1, if_neg hcc.2.2]
          rw [ih f (by simp only [List.length_cons] at hf; omega)
            (fun x hx => hc x (List.mem_cons_of_mem c hx))]
          simp

theorem parsePattern_literal (l : List Char)
    (hc : ∀ c ∈ l, c ≠ '*' ∧ c ≠ '?' ∧ c ≠ '[') :
    parsePattern l = l.map PatTok.lit :=
  parsePatternFuel_literal l l.length le_rfl hc

theorem parsePattern_star_lit (s : List Char)
    (hc : ∀ c ∈ s, c ≠ '*' ∧ c ≠ '?' ∧ c ≠ '[') :
    parsePattern ('*' :: s) = .star :: s.map PatTok.lit := by
  show parsePatternFuel ('*' :: s).length ('*' :: s) = _
  simp only [List.length_cons, parsePatternFuel]
  rw [if_pos trivial, parsePatternFuel_literal s s.length le_rfl hc]

theorem matchToks_lit_iff (l n : List Char) :
    matchToks (l.map PatTok.lit) n = true ↔ n = l := by
  induction l generalizing n with
  | nil => cases n <;> simp [matchToks]
  | cons c p ih =>
      cases n with
      | nil => simp [matchToks]
      | cons nc nt =>
          simp [matchToks, Bool.and_eq_true, beq_iff_eq, ih, List.cons.injEq]

theorem matchToks_star_iff (ts : List PatTok) (n : List Char) :
    matchToks (.star :: ts) n = true ↔
      ∃ n1 n2, n = n1 ++ n2 ∧ matchToks ts n2 = true := by
  show (n.tails.any fun nt => matchToks ts nt) = true ↔ _
  rw [List.any_eq_true]
  constructor
  · rintro ⟨nt, hmem, hm⟩
    obtain ⟨n1, hn1⟩ := (List.mem_tails nt n).mp hmem
    exact ⟨n1, nt, hn1.symm, hm⟩
  · rintro ⟨n1, n2, hn, hm⟩
    exact ⟨n2, (List.mem_tails n2 n).mpr ⟨n1, hn.symm⟩, hm⟩

theorem componentMatch_self (l : List Char)
    (hc : ∀ c ∈ l, c ≠ '*' ∧ c ≠ '?' ∧ c ≠ '[') :
    componentMatch l l = true := by
  unfold componentMatch
  rw [parsePattern_literal l hc, Bool.and_eq_true]
  constructor
  · cases l with
    | nil => rfl
    | cons c0 rest =>
        by_cases h0 : c0 = '.'
        · simp [h0]
        · simp [h0]
  · exact (matchToks_lit_iff l l).mpr rfl

theorem componentMatch_lit_eq (p n : List Char)
    (hc : ∀ c ∈ p, c ≠ '*' ∧ c ≠ '?' ∧ c ≠ '[')
    (h : componentMatch p n = true) : n = p := by
  unfold componentMatch at h
  rw [parsePattern_literal p hc, Bool.and_eq_true] at h
  exact (matchToks_lit_iff p n).mp h.2

/-! Lemmas about splitting paths into `/`-separated components. -/

theorem splitSlash_ne_nil (l : List Char) : splitSlash l ≠ [] := by
  cases l with
  | nil => simp [splitSlash]
  | cons c rest =>
      simp only [splitSlash]
      by_cases hc : c = '/'
      · rw [if_pos hc]
        simp
      · rw [if_neg hc]
        cases hs : splitSlash rest <;> simp

theorem splitSlash_append (X Y : List Char) :
    splitSlash (X ++ '/' :: Y) = splitSlash X ++ splitSlash Y := by
  induction X with
  | nil => simp [splitSlash]
  | cons c X ih =>
      simp only [List.cons_append, splitSlash, List.append_eq]
      by_cases hc : c = '/'
      · rw [if_pos hc, if_pos hc, ih]
        simp
      · rw [if_neg hc, if_neg hc, ih]
        cases hsx : splitSlash X with
        | nil => exact absurd hsx (splitSlash_ne_nil X)
        | cons comp comps => simp

theorem splitSlash_no_slash (l : List Char) (h : '/' ∉ l) : splitSlash l = [l] := by
  induction l with
  | nil => rfl
  | cons c rest ih =>
      simp only [splitSlash]
      have hc : c ≠ '/' := fun hh => h (hh ▸ List.mem_cons_self c rest)
      rw [if_neg hc, ih (fun hm => h (List.mem_cons_of_mem c hm))]

theorem joinSlash_cons_cons (c : Char) (x : List Char) (xs : List (List Char)) :
    joinSlash ((c :: x) :: xs) = c :: joinSlash (x :: xs) := by
  cases xs with
  | nil => rfl
  | cons y ys => rfl

theorem joinSlash_splitSlash (l : List Char) : joinSlash (splitSlash l) = l := by
  induction l with
  | nil => rfl
  | cons c rest ih =>
      simp only [splitSlash]
      by_cases hc : c = '/'
      · rw [if_pos hc]
        subst hc
        cases hsr : splitSlash rest with
        | nil => exact absurd hsr (splitSlash_ne_nil rest)
        | cons x xs =>
            rw [hsr] at ih
            show [] ++ '/' :: joinSlash (x :: xs) = '/' :: rest
            simp [ih]
      · rw [if_neg hc]
        cases hsr : splitSlash rest with
        | nil => exact absurd hsr (splitSlash_ne_nil rest)
        | cons x xs =>
            rw [hsr] at ih
            show joinSlash ((c :: x) :: xs) = c :: rest
            rw [joinSlash_cons_cons, ih]

theorem splitSlash_inj (X Y : List Char) (h : splitSlash X = splitSlash Y) : X = Y := by
  have hx := joinSlash_splitSlash X
  rw [h, joinSlash_splitSlash] at hx
  exact hx.symm

theorem mem_joinSlash (L : List (List Char)) (comp : List Char) (c : Char)
    (hm : c ∈ comp) : ∀ _ : comp ∈ L, c ∈ joinSlash L := by
  induction L with
  | nil =>
      intro hc
      simp at hc
  | cons a L ih =>
      intro hc
      rcases List.mem_cons.mp hc with h | h
      · subst h
        cases L with
        | nil => simpa [joinSlash] using hm
        | cons b L2 =>
            show c ∈ comp ++ '/' :: joinSlash (b :: L2)
            exact List.mem_append.mpr (Or.inl hm)
      · cases L with
        | nil => simp at h
        | cons b L2 =>
            have hrec := ih h
            show c ∈ a ++ '/' :: joinSlash (b :: L2)
            exact List.mem_append.mpr (Or.inr (List.mem_cons_of_mem '/' hrec))

theorem mem_splitSlash_mem (X comp : List Char) (hcm : comp ∈ splitSlash X)
    (c : Char) (hc : c ∈ comp) : c ∈ X := by
  have hj := mem_joinSlash (splitSlash X) comp c hc hcm
  rwa [joinSlash_splitSlash] at hj

theorem zip_all_self (A : List (List Char))
    (h : ∀ comp ∈ A, componentMatch comp comp = true) :
    ((A.zip A).all fun pc => componentMatch pc.1 pc.2) = true := by
  induction A with
  | nil => rfl
  | cons a A ih =>
      simp only [List.zip_cons_cons, List.all_cons]
      rw [h a (List.mem_cons_self a A), ih (fun comp hm => h comp (List.mem_cons_of_mem a hm))]
      rfl

theorem zip_all_lit_eq (A : List (List Char)) : ∀ (B : List (List Char)),
    (∀ comp ∈ A, ∀ c ∈ comp, c ≠ '*' ∧ c ≠ '?' ∧ c ≠ '[') →
    A.length = B.length →
    ((A.zip B).all fun pc => componentMatch pc.1 pc.2) = true → B = A := by
  induction A with
  | nil =>
      intro B _ hlen _
      cases B with
      | nil => rfl
      | cons b B => simp at hlen
  | cons a A ih =>
      intro B hA hlen h
      cases B with
      | nil => simp at hlen
      | cons b B =>
          simp only [List.zip_cons_cons, List.all_cons, Bool.and_eq_true] at h
          have hb := componentMatch_lit_eq a b (hA a (List.mem_cons_self a A)) h.1
          have hB := ih B (fun comp hm => hA comp (List.mem_cons_of_mem a hm))
            (by simpa using hlen) h.2
          rw [hb, hB]

/-- A path the layer itself built under root `r` matches the glob pattern
`{r}/*.{e}` when the extension and the root carry no glob metacharacters,
the filename `i.e` is separator-free, and `i` does not start with a dot. -/
theorem globMatch_own (r i e : String) (c : Char) (tl : List Char)
    (hic : i.data = c :: tl) (hc0 : c ≠ '.') (hi : '/' ∉ i.data)
    (hE : ∀ ch ∈ e.data, ch ≠ '/' ∧ ch ≠ '*' ∧ ch ≠ '?' ∧ ch ≠ '[')
    (hR : ∀ ch ∈ r.data, ch ≠ '*' ∧ ch ≠ '?' ∧ ch ≠ '[') :
    globMatch r e (r ++ "/" ++ i ++ "." ++ e) = true := by
  have hslE : '/' ∉ e.data := fun hm => (hE '/' hm).1 rfl
  have hse : '/' ∉ ('*' :: '.' :: e.data) := by
    intro hm
    rcases List.mem_cons.mp hm with h | hm2
    · exact absurd h (by decide)
    · rcases List.mem_cons.mp hm2 with h | h
      · exact absurd h (by decide)
      · exact hslE h
  have hsf : '/' ∉ (i.data ++ '.' :: e.data) := by
    intro hm
    rcases List.mem_append.mp hm with h | hm2
    · exact hi h
    · rcases List.mem_cons.mp hm2 with h | h
      · exact absurd h (by decide)
      · exact hslE h
  have hdotE : ∀ ch ∈ '.' :: e.data, ch ≠ '*' ∧ ch ≠ '?' ∧ ch ≠ '[' := by
    intro ch hm
    rcases List.mem_cons.mp hm with h | h
    · subst h
      exact ⟨by decide, by decide, by decide⟩
    · exact ⟨(hE ch h).2.1, (hE ch h).2.2.1, (hE ch h).2.2.2⟩
  unfold globMatch
  rw [data_star_path, data_obj_path, splitSlash_append, splitSlash_append,
    splitSlash_no_slash _ hse, splitSlash_no_slash _ hsf]
  rw [Bool.and_eq_true]
  constructor
  · simp
  · rw [List.zip_append rfl, List.all_append, Bool.and_eq_true]
    constructor
    · exact zip_all_self _ (fun comp hcm =>
        componentMatch_self comp
          (fun ch hch => hR ch (mem_splitSlash_mem r.data comp hcm ch hch)))
    · simp only [List.zip_cons_cons, List.zip_nil_right, List.all_cons, List.all_nil,
        Bool.and_true]
      unfold componentMatch
      rw [Bool.and_eq_true]
      constructor
      · rw [hic]
        simp [List.cons_append, hc0]
      · rw [parsePattern_star_lit ('.' :: e.data) hdotE]
        exact (matchToks_star_iff _ _).mpr
          ⟨i.data, '.' :: e.data, rfl, (matchToks_lit_iff _ _).mpr rfl⟩

/-- A filename whose full name does not end in `.e` never matches the
pattern `{r}/*.{e}` when `e` has no metacharacters, whatever its own
extension is. -/
theorem globMatch_bad_suffix (r i e2 e : String)
    (hi : '/' ∉ i.data) (hi2 : '/' ∉ e2.data)
    (hE : ∀ ch ∈ e.data, ch ≠ '/' ∧ ch ≠ '*' ∧ ch ≠ '?' ∧ ch ≠ '[')
    (hsuf : ('.' :: e.data).isSuffixOf (i.data ++ '.' :: e2.data) = false) :
    globMatch r e (r ++ "/" ++ i ++ "." ++ e2) = false := by
  cases hg : globMatch r e (r ++ "/" ++ i ++ "." ++ e2) with
  | false => rfl
  | true =>
      exfalso
      have hslE : '/' ∉ e.data := fun hm => (hE '/' hm).1 rfl
      have hse : '/' ∉ ('*' :: '.' :: e.data) := by
        intro hm
        rcases List.mem_cons.mp hm with h | hm2
        · exact absurd h (by decide)
        · rcases List.mem_cons.mp hm2 with h | h
          · exact absurd h (by decide)
          · exact hslE h
      have hsf : '/' ∉ (i.data ++ '.' :: e2.data) := by
        intro hm
        rcases List.mem_append.mp hm with h | hm2
        · exact hi h
        · rcases List.mem_cons.mp hm2 with h | h
          · exact absurd h (by decide)
          · exact hi2 h
      have hdotE : ∀ ch ∈ '.' :: e.data, ch ≠ '*' ∧ ch ≠ '?' ∧ ch ≠ '[' := by
        intro ch hm
        rcases List.mem_cons.mp hm with h | h
        · subst h
          exact ⟨by decide, by decide, by decide⟩
        · exact ⟨(hE ch h).2.1, (hE ch h).2.2.1, (hE ch h).2.2.2⟩
      unfold globMatch at hg
      rw [data_star_path, data_obj_path, splitSlash_append, splitSlash_append,
        splitSlash_no_slash _ hse, splitSlash_no_slash _ hsf] at hg
      rw [Bool.and_eq_true] at hg
      obtain ⟨-, hall⟩ := hg
      rw [List.zip_append rfl, List.all_append, Bool.and_eq_true] at hall
      have hlast := hall.2
      simp only [List.zip_cons_cons, List.zip_nil_right, List.all_cons, List.all_nil,
        Bool.and_true] at hlast
      unfold componentMatch at hlast
      rw [Bool.and_eq_true] at hlast
      have hm := hlast.2
      rw [parsePattern_star_lit ('.' :: e.data) hdotE] at hm
      obtain ⟨n1, n2, hn, hm2⟩ := (matchToks_star_iff _ _).mp hm
      have hn2 := (matchToks_lit_iff _ _).mp hm2
      subst hn2
      rw [hn, isSuffixOf_append_left] at hsuf
      exact Bool.noConfusion hsuf

/-- A path rooted in a different directory never matches the pattern
`{r}/*.{e}` when the root and extension carry no glob metacharacters and
the filename is separator-free. -/
theorem globMatch_other_root (r r2 i e2 e : String)
    (hi : '/' ∉ i.data) (hi2 : '/' ∉ e2.data)
    (hE : ∀ ch ∈ e.data, ch ≠ '/' ∧ ch ≠ '*' ∧ ch ≠ '?' ∧ ch ≠ '[')
    (hR : ∀ ch ∈ r.data, ch ≠ '*' ∧ ch ≠ '?' ∧ ch ≠ '[')
    (hne : r ≠ r2) :
    globMatch r e (r2 ++ "/" ++ i ++ "." ++ e2) = false := by
  cases hg : globMatch r e (r2 ++ "/" ++ i ++ "." ++ e2) with
  | false => rfl
  | true =>
      exfalso
      have hslE : '/' ∉ e.data := fun hm => (hE '/' hm).1 rfl
      have hse : '/' ∉ ('*' :: '.' :: e.data) := by
        intro hm
        rcases List.mem_cons.mp hm with h | hm2
        · exact absurd h (by decide)
        · rcases List.mem_cons.mp hm2 with h | h
          · exact absurd h (by decide)
          · exact hslE h
      have hsf : '/' ∉ (i.data ++ '.' :: e2.data) := by
        intro hm
        rcases List.mem_append.mp hm with h | hm2
        · exact hi h
        · rcases List.mem_cons.mp hm2 with h | h
          · exact absurd h (by decide)
          · exact hi2 h
      unfold globMatch at hg
      rw [data_star_path, data_obj_path, splitSlash_append, splitSlash_append,
        splitSlash_no_slash _ hse, splitSlash_no_slash _ hsf] at hg
      rw [Bool.and_eq_true] at hg
      obtain ⟨hlen, hall⟩ := hg
      have hlen2 : (splitSlash r.data).length = (splitSlash r2.data).length := by
        simp only [List.length_append, List.length_cons, List.length_nil,
          beq_iff_eq] at hlen
        omega
      rw [List.zip_append hlen2, List.all_append, Bool.and_eq_true] at hall
      have hcomps := zip_all_lit_eq (splitSlash r.data) (splitSlash r2.data)
        (fun comp hcm ch hch => hR ch (mem_splitSlash_mem r.data comp hcm ch hch))
        hlen2 hall.1
      exact hne (strData_inj r r2 (splitSlash_inj r.data r2.data hcomps.symm))

theorem cons_dot_ne (c c2 : Char) (X Y : List Char) (h : c ≠ c2) :
    (c :: '.' :: X) ≠ (c2 :: '.' :: Y) := by
  intro hx
  injection hx with h1 _
  exact h h1

theorem path_ne_same_root (r i i2 e e2 : String)
    (hne : i.data ++ '.' :: e.data ≠ i2.data ++ '.' :: e2.data) :
    r ++ "/" ++ i ++ "." ++ e ≠ r ++ "/" ++ i2 ++ "." ++ e2 := by
  intro h
  apply hne
  have hd := congrArg String.data h
  rw [data_path_flat, data_path_flat] at hd
  exact List.append_cancel_left hd

theorem path_ne_other_root (r r2 i i2 e e2 : String)
    (hm1 : '/' ∉ (i.data ++ '.' :: e.data))
    (hm2 : '/' ∉ (i2.data ++ '.' :: e2.data))
    (hne : r ≠ r2) :
    r ++ "/" ++ i ++ "." ++ e ≠ r2 ++ "/" ++ i2 ++ "." ++ e2 := by
  intro h
  have hd := congrArg String.data h
  rw [data_obj_path, data_obj_path] at hd
  have hinj := sep_append_inj_last _ _ _ _ hm1 hm2 hd
  exact hne (strData_inj r r2 hinj.1)

/-- C5, counterexample to the exclusion clause: after creating ids
`a`, `b`, `c` under extension `json` and an object `d` under the *other*
extension `x.json`, `get_objects (recipe, "json")` also yields
`rt/d.x.json` — the glob pattern `*.json` matches the file of the other
extension because that extension ends in `.json` — so the listing is not
exactly the three paths. -/
theorem get_objects_counterexample :
    ((Storage.create_object envTest fsEmpty "recipe" "a" [] "json").bind (fun f1 =>
      (Storage.create_object envTest f1 "recipe" "b" [] "json").bind (fun f2 =>
      (Storage.create_object envTest f2 "recipe" "c" [] "json").bind (fun f3 =>
      (Storage.create_object envTest f3 "recipe" "d" [] "x.json").bind (fun f4 =>
      Storage.get_objects envTest f4 "recipe" "json")))))
      = .ok ["rt/d.x.json", "rt/c.json", "rt/b.json", "rt/a.json"] ∧
    "x.json" ≠ "json" ∧
    "rt/d.x.json" ∉ (["rt/a.json", "rt/b.json", "rt/c.json"] : List String) := by
  refine ⟨rfl, ?_, ?_⟩ <;> decide

/-- C5, amended: after creating exactly ids `a`, `b`, `c` under an
extension `e` free of separators and of glob metacharacters (`*`, `?`,
`[`) for a type whose configured root is likewise metacharacter-free,
plus an object `d` of the same type whose extension `e2` makes the
filename `d.e2` *not* end in `.e`, plus an object `x` of another type
whose configured root differs, `get_objects (t, e)` yields exactly the
three paths `root(t)/{a,b,c}.e` as a set (order-independent membership
equality). -/
theorem get_objects_lists_exactly_matching (env : EnvironmentVars)
    (t t2 r r2 e e2 : String) (ct : String → Int)
    (ht : env.attrs t = some r) (ht2 : env.attrs t2 = some r2)
    (hroot : r ≠ r2)
    (hE : ∀ ch ∈ e.data, ch ≠ '/' ∧ ch ≠ '*' ∧ ch ≠ '?' ∧ ch ≠ '[')
    (hE2 : '/' ∉ e2.data)
    (hR : ∀ ch ∈ r.data, ch ≠ '*' ∧ ch ≠ '?' ∧ ch ≠ '[')
    (hsufd : ('.' :: e.data).isSuffixOf ('d' :: '.' :: e2.data) = false) :
    ∃ l,
      ((Storage.create_object env ⟨[], ct⟩ t "a" [] e).bind (fun f1 =>
        (Storage.create_object env f1 t "b" [] e).bind (fun f2 =>
        (Storage.create_object env f2 t "c" [] e).bind (fun f3 =>
        (Storage.create_object env f3 t "d" [] e2).bind (fun f4 =>
        (Storage.create_object env f4 t2 "x" [] e).bind (fun f5 =>
        Storage.get_objects env f5 t e)))))) = .ok l ∧
      (∀ p, p ∈ l ↔
        (p = r ++ "/" ++ "a" ++ "." ++ e ∨ p = r ++ "/" ++ "b" ++ "." ++ e ∨
          p = r ++ "/" ++ "c" ++ "." ++ e)) := by
  have hslE : '/' ∉ e.data := fun hm => (hE '/' hm).1 rfl
  have hfgen : ∀ c0 : Char, c0 ≠ '/' → '/' ∉ (c0 :: '.' :: e.data) := by
    intro c0 hc0 hm
    rcases List.mem_cons.mp hm with h | hm2
    · exact hc0 h.symm
    · rcases List.mem_cons.mp hm2 with h | h
      · exact absurd h (by decide)
      · exact hslE h
  have hfa := hfgen 'a' (by decide)
  have hfx := hfgen 'x' (by decide)
  have hfd : '/' ∉ ('d' :: '.' :: e2.data) := by
    intro hm
    rcases List.mem_cons.mp hm with h | hm2
    · exact absurd h (by decide)
    · rcases List.mem_cons.mp hm2 with h | h
      · exact absurd h (by decide)
      · exact hE2 h
  have hab := path_ne_same_root r "a" "b" e e (cons_dot_ne 'a' 'b' e.data e.data (by decide))
  have hac := path_ne_same_root r "a" "c" e e (cons_dot_ne 'a' 'c' e.data e.data (by decide))
  have hbc := path_ne_same_root r "b" "c" e e (cons_dot_ne 'b' 'c' e.data e.data (by decide))
  have had := path_ne_same_root r "a" "d" e e2 (cons_dot_ne 'a' 'd' e.data e2.data (by decide))
  have hbd := path_ne_same_root r "b" "d" e e2 (cons_dot_ne 'b' 'd' e.data e2.data (by decide))
  have hcd := path_ne_same_root r "c" "d" e e2 (cons_dot_ne 'c' 'd' e.data e2.data (by decide))
  have hax := path_ne_other_root r r2 "a" "x" e e hfa hfx hroot
  have hbx := path_ne_other_root r r2 "b" "x" e e (hfgen 'b' (by decide)) hfx hroot
  have hcx := path_ne_other_root r r2 "c" "x" e e (hfgen 'c' (by decide)) hfx hroot
  have hdx := path_ne_other_root r r2 "d" "x" e2 e hfd hfx hroot
  have hga := globMatch_own r "a" e 'a' [] rfl (by decide) (by decide) hE hR
  have hgb := globMatch_own r "b" e 'b' [] rfl (by decide) (by decide) hE hR
  have hgc := globMatch_own r "c" e 'c' [] rfl (by decide) (by decide) hE hR
  have hgd := globMatch_bad_suffix r "d" e2 e (by decide) hE2 hE hsufd
  have hgx := globMatch_other_root r r2 "x" e e (by decide) hslE hE hR hroot
  refine ⟨[r ++ "/" ++ "c" ++ "." ++ e, r ++ "/" ++ "b" ++ "." ++ e,
    r ++ "/" ++ "a" ++ "." ++ e], ?_, ?_⟩
  · simp only [Storage.create_object, Storage.get_objects, ht, ht2, Except.bind,
      FileSystem.setFile, List.filter_cons, List.filter_nil, List.map_cons, List.map_nil,
      hab, hac, hbc, had, hbd, hcd, hax, hbx, hcx, hdx, hga, hgb, hgc, hgd, hgx]
    simp [hab, hac, hbc, had, hbd, hcd, hax, hbx, hcx, hdx, hga, hgb, hgc, hgd, hgx]
  · intro p
    simp only [List.mem_cons, List.not_mem_nil, or_false]
    constructor
    · rintro (h | h | h)
      · exact Or.inr (Or.inr h)
      · exact Or.inr (Or.inl h)
      · exact Or.inl h
    · rintro (h | h | h)
      · exact Or.inr (Or.inr h)
      · exact Or.inr (Or.inl h)
      · exact Or.inl h

theorem get_objects_lists_exactly_matching_witness :
    ∃ l,
      ((Storage.create_object envTest ⟨[], fun _ => 0⟩ "recipe" "a" [] "json").bind (fun f1 =>
        (Storage.create_object envTest f1 "recipe" "b" [] "json").bind (fun f2 =>
        (Storage.create_object envTest f2 "recipe" "c" [] "json").bind (fun f3 =>
        (Storage.create_object envTest f3 "recipe" "d" [] "yaml").bind (fun f4 =>
        (Storage.create_object envTest f4 "session" "x" [] "json").bind (fun f5 =>
        Storage.get_objects envTest f5 "recipe" "json")))))) = .ok l ∧
      (∀ p, p ∈ l ↔
        (p = "rt" ++ "/" ++ "a" ++ "." ++ "json" ∨ p = "rt" ++ "/" ++ "b" ++ "." ++ "json" ∨
          p = "rt" ++ "/" ++ "c" ++ "." ++ "json")) :=
  get_objects_lists_exactly_matching envTest "recipe" "session" "rt" "rs" "json" "yaml"
    (fun _ => 0) (by decide) (by decide) (by decide) (by decide) (by decide) (by decide)
    (by decide)

end Moonshot
